import Mathlib

/-
Verification of the runtime helper layer (vendor/k8s.io/kubernetes/pkg/runtime/helper.go):
the typer adaptor `objectTyperToTyper`, the batch codec `EncodeList` / `DecodeList` /
`decodeListItem`, and the federated typer `MultiObjectTyper`.

Shallow embedding conventions:
- Go slices become `List`; the in-place mutation of `objects []Object` is made explicit
  by returning the updated list alongside the collected errors.
- Raw bytes are `List Nat`; error payloads are `String`.
- Collaborator interfaces (`Encoder`, `Decoder`, `ObjectTyper`) are records of functions,
  so every theorem quantifies over all collaborator behaviours.  Fallible Go results
  `(T, error)` become `Except` (when the success value is only meaningful without an
  error) or `T × Option err` (when Go's named return values make the partial value
  observable, as in `MultiObjectTyper`).
-/

namespace Runtime

/-- GroupVersionKind from pkg/api/unversioned: the (group, version, kind) identifier. -/
structure GroupVersionKind where
  group : String
  version : String
  kind : String
deriving DecidableEq, Repr

/-- GroupVersion from pkg/api/unversioned, used for encoder version overrides. -/
structure GroupVersion where
  group : String
  version : String
deriving DecidableEq, Repr

/-- TypeMeta carried by an `Unknown` envelope: best-effort kind/version metadata. -/
structure TypeMeta where
  apiVersion : String
  kind : String
deriving DecidableEq, Repr

/-- The zero value of `TypeMeta`, as produced by Go's `Unknown{Raw: data}` literal. -/
def zeroTypeMeta : TypeMeta :=
  { apiVersion := "", kind := "" }

/-- Unknown (the spec's Envelope): raw undecoded bytes plus optional metadata. -/
structure Unknown where
  typeMeta : TypeMeta
  raw : List Nat
deriving DecidableEq, Repr

/-- Object: either an `Unknown` envelope or an opaque typed domain value, identified
by its concrete (reflected) type name and an opaque payload. -/
inductive Object where
  | unknown (u : Unknown)
  | typed (typeName : String) (value : Nat)
deriving DecidableEq, Repr

/-- Go's `reflect.TypeOf(obj)`, used in the contract-violation error message. -/
def reflectTypeOf : Object → String
  | Object.unknown _ => "*runtime.Unknown"
  | Object.typed typeName _ => typeName

/-- True exactly when the object is an `Unknown` envelope (Go's `case *Unknown`). -/
def isEnvelope : Object → Bool
  | Object.unknown _ => true
  | Object.typed _ _ => false

/-- A decode failure: either the "kind not registered with this decoder" condition
or any other error, each carrying a message. -/
inductive DecodeError where
  | notRegistered (msg : String)
  | other (msg : String)
deriving DecidableEq, Repr

/-- IsNotRegisteredError: recognises the expected, non-fatal kind-mismatch condition. -/
def IsNotRegisteredError : DecodeError → Bool
  | DecodeError.notRegistered _ => true
  | DecodeError.other _ => false

/-- Modelled from the spec: the Encoder collaborator contract (section 6),
`Encode(Object, versionOverrides) -> (bytes, error)`; its implementations are not part
of this repository's source. -/
structure Encoder where
  encode : Object → List GroupVersion → Except String (List Nat)

/-- Modelled from the spec: the Decoder collaborator contract (section 6):
`Decode(bytes) -> (Object, error)` distinguishing the not-registered condition, and
`DecodeMetadataInto(bytes, Envelope) -> error` writing only KindVersion metadata into
the envelope on success (`some` is the updated envelope, `none` is failure); the
implementations are not part of this repository's source. -/
structure Decoder where
  decode : List Nat → Except DecodeError Object
  decodeInto : List Nat → Unknown → Option Unknown

/-- errors.NewAggregate: nil when the error list is empty, otherwise the aggregate
holding the recorded errors in order. -/
def NewAggregate {α : Type} (errs : List α) : Option (List α) :=
  if errs.isEmpty then none else some errs

/-- EncodeList's loop body, recursing over the collection: on success position i becomes
`&Unknown{Raw: data}`; on failure the error is appended and the position is kept. -/
def encodeListGo (e : Encoder) (overrides : List GroupVersion) :
    List Object → List Object × List String
  | [] => ([], [])
  | obj :: rest =>
    let r := encodeListGo e overrides rest
    match e.encode obj overrides with
    | Except.error err => (obj :: r.1, err :: r.2)
    | Except.ok data => (Object.unknown { typeMeta := zeroTypeMeta, raw := data } :: r.1, r.2)

/-- EncodeList: encodes every object of the collection in place and returns the
aggregated error (`errors.NewAggregate(errs)`). -/
def EncodeList (e : Encoder) (objects : List Object) (overrides : List GroupVersion) :
    List Object × Option (List String) :=
  let r := encodeListGo e overrides objects
  (r.1, NewAggregate r.2)

/-- The first loop of `decodeListItem`: try each decoder in order on the raw bytes;
`none` means every decoder failed with the not-registered condition. -/
def decodeFull (raw : List Nat) : List Decoder → Option (Except DecodeError Object)
  | [] => none
  | d :: ds =>
    match d.decode raw with
    | Except.ok o => some (Except.ok o)
    | Except.error e =>
      if IsNotRegisteredError e then decodeFull raw ds
      else some (Except.error e)

/-- The second loop of `decodeListItem`: give each decoder the chance to set the
envelope's TypeMeta; the first success wins, otherwise the envelope is unchanged. -/
def decodeMeta (u : Unknown) : List Decoder → Unknown
  | [] => u
  | d :: ds =>
    match d.decodeInto u.raw u with
    | some u' => u'
    | none => decodeMeta u ds

/-- decodeListItem: the full-decode pass followed, only when every decoder reported
not-registered, by the metadata-only pass. -/
def decodeListItem (u : Unknown) (decoders : List Decoder) : Except DecodeError Object :=
  match decodeFull u.raw decoders with
  | some (Except.ok o) => Except.ok o
  | some (Except.error e) => Except.error e
  | none => Except.ok (Object.unknown (decodeMeta u decoders))

/-- DecodeList: alters the list in place, decoding every `Unknown`; errors are collected
and returned after the entire list is processed. -/
def DecodeList (objects : List Object) (decoders : List Decoder) :
    List Object × List DecodeError :=
  match objects with
  | [] => ([], [])
  | obj :: rest =>
    let r := DecodeList rest decoders
    match obj with
    | Object.unknown u =>
      match decodeListItem u decoders with
      | Except.error e => (obj :: r.1, e :: r.2)
      | Except.ok decoded => (decoded :: r.1, r.2)
    | Object.typed _ _ => (obj :: r.1, r.2)

/-- The ObjectTyper interface: a type-identification source.  Go's multiple return
values `(gvk, err)` are kept as pairs because `MultiObjectTyper`'s named return values
make the partial result observable. -/
structure ObjectTyper where
  objectKind : Object → GroupVersionKind × Option String
  objectKinds : Object → List GroupVersionKind × Option String
  recognizes : GroupVersionKind → Bool
  isUnversioned : Object → Bool × Bool

/-- The error returned by `objectTyperToTyper.ObjectKind`: either the underlying
typer's failure, or the contract-violation error naming the object's reflected type. -/
inductive TyperError where
  | propagated (e : String)
  | contractViolation (typeName : String)
deriving DecidableEq, Repr

/-- objectTyperToTyper: wraps a single ObjectTyper behind the new Typer interface. -/
structure objectTyperToTyper where
  typer : ObjectTyper

/-- objectTyperToTyper.ObjectKind: propagate the kind-lookup's failure; if the kind
lookup succeeds but IsUnversioned reports not-found, fail with the contract-violation
error; otherwise return the kind and the unversioned flag. -/
def objectTyperToTyper.ObjectKind (t : objectTyperToTyper) (obj : Object) :
    Option GroupVersionKind × Bool × Option TyperError :=
  let r := t.typer.objectKind obj
  match r.2 with
  | some e => (none, false, some (TyperError.propagated e))
  | none =>
    let s := t.typer.isUnversioned obj
    if !s.2 then (none, false, some (TyperError.contractViolation (reflectTypeOf obj)))
    else (some r.1, s.1, none)

/-- MultiObjectTyper: an ordered list of ObjectTyper sources. -/
abbrev MultiObjectTyper := List ObjectTyper

/-- The zero value of `GroupVersionKind`, Go's initial named return value. -/
def zeroGroupVersionKind : GroupVersionKind :=
  { group := "", version := "", kind := "" }

/-- The loop of `MultiObjectTyper.ObjectKind`: `gvk` and `err` are the current named
return values, overwritten by each source, returned at the first nil error or at the
end of the list. -/
def multiObjectKindGo (obj : Object) (gvk : GroupVersionKind) (err : Option String) :
    List ObjectTyper → GroupVersionKind × Option String
  | [] => (gvk, err)
  | t :: ts =>
    let r := t.objectKind obj
    match r.2 with
    | none => (r.1, none)
    | some e => multiObjectKindGo obj r.1 (some e) ts

/-- MultiObjectTyper.ObjectKind: try each source in order, returning the first
successful result; the named return values start at their zero values. -/
def MultiObjectTyper.ObjectKind (m : MultiObjectTyper) (obj : Object) :
    GroupVersionKind × Option String :=
  multiObjectKindGo obj zeroGroupVersionKind none m

/-- The loop of `MultiObjectTyper.ObjectKinds`, threading Go's named return values
(`gvks` starts as the nil slice, `err` as nil). -/
def multiObjectKindsGo (obj : Object) (gvks : List GroupVersionKind) (err : Option String) :
    List ObjectTyper → List GroupVersionKind × Option String
  | [] => (gvks, err)
  | t :: ts =>
    let r := t.objectKinds obj
    match r.2 with
    | none => (r.1, none)
    | some e => multiObjectKindsGo obj r.1 (some e) ts

/-- MultiObjectTyper.ObjectKinds: try each source in order, returning the first
successful candidate list. -/
def MultiObjectTyper.ObjectKinds (m : MultiObjectTyper) (obj : Object) :
    List GroupVersionKind × Option String :=
  multiObjectKindsGo obj [] none m

/-- MultiObjectTyper.Recognizes: true if any source recognizes the gvk. -/
def MultiObjectTyper.Recognizes (m : MultiObjectTyper) (gvk : GroupVersionKind) : Bool :=
  match m with
  | [] => false
  | t :: ts => t.recognizes gvk || MultiObjectTyper.Recognizes ts gvk

/-- MultiObjectTyper.IsUnversioned: return the first source's answer that affirmatively
reports found; otherwise (false, false). -/
def MultiObjectTyper.IsUnversioned (m : MultiObjectTyper) (obj : Object) : Bool × Bool :=
  match m with
  | [] => (false, false)
  | t :: ts =>
    let r := t.isUnversioned obj
    if r.2 then (r.1, true) else MultiObjectTyper.IsUnversioned ts obj

/-- What `EncodeList` does to one position, in isolation. -/
def encodeStep (e : Encoder) (overrides : List GroupVersion) (obj : Object) : Object :=
  match e.encode obj overrides with
  | Except.ok data => Object.unknown { typeMeta := zeroTypeMeta, raw := data }
  | Except.error _ => obj

/-- The error `EncodeList` records for one position, if any. -/
def encodeErr (e : Encoder) (overrides : List GroupVersion) (obj : Object) : Option String :=
  match e.encode obj overrides with
  | Except.ok _ => none
  | Except.error err => some err

/-- What `DecodeList` does to one position, in isolation. -/
def decodeStep (decoders : List Decoder) (obj : Object) : Object :=
  match obj with
  | Object.unknown u =>
    match decodeListItem u decoders with
    | Except.ok decoded => decoded
    | Except.error _ => obj
  | Object.typed _ _ => obj

/-- The error `DecodeList` records for one position, if any. -/
def decodeErr (decoders : List Decoder) (obj : Object) : Option DecodeError :=
  match obj with
  | Object.unknown u =>
    match decodeListItem u decoders with
    | Except.ok _ => none
    | Except.error e => some e
  | Object.typed _ _ => none

/-- A sample typed object, used to instantiate the theorems on concrete inputs. -/
def obj0 : Object := Object.typed "T" 0

/-- A sample envelope with raw bytes [1, 2] and zero metadata. -/
def u0 : Unknown := { typeMeta := zeroTypeMeta, raw := [1, 2] }

/-- A sample decoded object. -/
def objA : Object := Object.typed "A" 1

/-- A decoder that always reports the not-registered condition and never sets metadata. -/
def decNotReg : Decoder :=
  { decode := fun _ => Except.error (DecodeError.notRegistered "nr"),
    decodeInto := fun _ _ => none }

/-- A decoder that fully decodes everything to `objA`. -/
def decOkA : Decoder :=
  { decode := fun _ => Except.ok objA,
    decodeInto := fun _ u => some u }

/-- A decoder that always fails with a non-not-registered condition. -/
def decHard : Decoder :=
  { decode := fun _ => Except.error (DecodeError.other "boom"),
    decodeInto := fun _ _ => none }

/-- A decoder whose full decode reports not-registered but whose metadata-only pass
succeeds, writing v1/Foo into the envelope. -/
def decMetaOnly : Decoder :=
  { decode := fun _ => Except.error (DecodeError.notRegistered "nr"),
    decodeInto := fun _ u => some { u with typeMeta := { apiVersion := "v1", kind := "Foo" } } }

/-- An encoder that encodes every object to the bytes [7]. -/
def encOk : Encoder := { encode := fun _ _ => Except.ok [7] }

/-- A sample GroupVersionKind. -/
def gvkA : GroupVersionKind := { group := "g", version := "v1", kind := "A" }

/-- A source that always succeeds, reporting `gvkA` and unversioned (false, found). -/
def typerOk : ObjectTyper :=
  { objectKind := fun _ => (gvkA, none),
    objectKinds := fun _ => ([gvkA], none),
    recognizes := fun _ => true,
    isUnversioned := fun _ => (false, true) }

/-- A source that always fails its kind lookups and reports unversioned not-found. -/
def typerFail : ObjectTyper :=
  { objectKind := fun _ => (zeroGroupVersionKind, some "no kind"),
    objectKinds := fun _ => ([], some "no kind"),
    recognizes := fun _ => false,
    isUnversioned := fun _ => (false, false) }

/-- A contract-violating source: it reports a kind but not-found for unversioned. -/
def typerBadContract : ObjectTyper :=
  { objectKind := fun _ => (gvkA, none),
    objectKinds := fun _ => ([gvkA], none),
    recognizes := fun _ => false,
    isUnversioned := fun _ => (false, false) }

theorem encodeListGo_eq (e : Encoder) (overrides : List GroupVersion)
    (objects : List Object) :
    encodeListGo e overrides objects
      = (objects.map (encodeStep e overrides), objects.filterMap (encodeErr e overrides)) := by
  induction objects with
  | nil => rfl
  | cons obj rest ih =>
    simp only [encodeListGo, ih, List.map_cons, List.filterMap_cons,
      encodeStep, encodeErr]
    cases e.encode obj overrides <;> rfl

theorem EncodeList_eq (e : Encoder) (objects : List Object) (overrides : List GroupVersion) :
    EncodeList e objects overrides
      = (objects.map (encodeStep e overrides),
         NewAggregate (objects.filterMap (encodeErr e overrides))) := by
  simp only [EncodeList, encodeListGo_eq]

theorem DecodeList_eq (objects : List Object) (decoders : List Decoder) :
    DecodeList objects decoders
      = (objects.map (decodeStep decoders), objects.filterMap (decodeErr decoders)) := by
  induction objects with
  | nil => rfl
  | cons obj rest ih =>
    simp only [DecodeList, ih, List.map_cons, List.filterMap_cons]
    cases obj with
    | typed tn v => rfl
    | unknown u =>
      simp only [decodeStep, decodeErr]
      cases decodeListItem u decoders <;> rfl

theorem DecodeList_append (a b : List Object) (decoders : List Decoder) :
    DecodeList (a ++ b) decoders
      = ((DecodeList a decoders).1 ++ (DecodeList b decoders).1,
         (DecodeList a decoders).2 ++ (DecodeList b decoders).2) := by
  simp [DecodeList_eq]

theorem decodeFull_append_notRegistered (raw : List Nat) (pre ds : List Decoder)
    (hpre : ∀ d ∈ pre, ∃ e, d.decode raw = Except.error e ∧ IsNotRegisteredError e = true) :
    decodeFull raw (pre ++ ds) = decodeFull raw ds := by
  induction pre with
  | nil => rfl
  | cons d pre ih =>
    obtain ⟨e, he, hreg⟩ := hpre d (List.mem_cons_self d pre)
    simp only [List.cons_append, decodeFull, he, hreg, if_true]
    exact ih fun d' hd' => hpre d' (List.mem_cons_of_mem d hd')

theorem decodeMeta_append_failed (u : Unknown) (pre ds : List Decoder)
    (hpre : ∀ d ∈ pre, d.decodeInto u.raw u = none) :
    decodeMeta u (pre ++ ds) = decodeMeta u ds := by
  induction pre with
  | nil => rfl
  | cons d pre ih =>
    simp only [List.cons_append, decodeMeta, hpre d (List.mem_cons_self d pre)]
    exact ih fun d' hd' => hpre d' (List.mem_cons_of_mem d hd')

theorem multiObjectKindGo_skip (obj : Object) (t : ObjectTyper) (ts : List ObjectTyper)
    (gvk g : GroupVersionKind) (err : Option String) (e : String)
    (h : t.objectKind obj = (g, some e)) :
    multiObjectKindGo obj gvk err (t :: ts) = multiObjectKindGo obj g (some e) ts := by
  simp only [multiObjectKindGo, h]

theorem multiObjectKindGo_last (obj : Object) (t : ObjectTyper)
    (gvk : GroupVersionKind) (err : Option String) :
    multiObjectKindGo obj gvk err [t] = t.objectKind obj := by
  simp only [multiObjectKindGo]
  cases h : t.objectKind obj with
  | mk g e =>
    cases e with
    | none => simp [h]
    | some e => simp [h, multiObjectKindGo]

theorem multiObjectKindGo_success_head (obj : Object) (t : ObjectTyper)
    (ts : List ObjectTyper) (gvk g : GroupVersionKind) (err : Option String)
    (h : t.objectKind obj = (g, none)) :
    multiObjectKindGo obj gvk err (t :: ts) = (g, none) := by
  simp only [multiObjectKindGo, h]

theorem multiObjectKindsGo_skip (obj : Object) (t : ObjectTyper) (ts : List ObjectTyper)
    (gvks gs : List GroupVersionKind) (err : Option String) (e : String)
    (h : t.objectKinds obj = (gs, some e)) :
    multiObjectKindsGo obj gvks err (t :: ts) = multiObjectKindsGo obj gs (some e) ts := by
  simp only [multiObjectKindsGo, h]

theorem multiObjectKindsGo_last (obj : Object) (t : ObjectTyper)
    (gvks : List GroupVersionKind) (err : Option String) :
    multiObjectKindsGo obj gvks err [t] = t.objectKinds obj := by
  simp only [multiObjectKindsGo]
  cases h : t.objectKinds obj with
  | mk gs e =>
    cases e with
    | none => simp [h]
    | some e => simp [h, multiObjectKindsGo]

theorem multiObjectKindsGo_success_head (obj : Object) (t : ObjectTyper)
    (ts : List ObjectTyper) (gvks gs : List GroupVersionKind) (err : Option String)
    (h : t.objectKinds obj = (gs, none)) :
    multiObjectKindsGo obj gvks err (t :: ts) = (gs, none) := by
  simp only [multiObjectKindsGo, h]

theorem multiObjectKindGo_append_failed (obj : Object) (pre : List ObjectTyper)
    (hpre : ∀ t' ∈ pre, ((t'.objectKind obj).2).isSome = true) :
    ∀ (ts : List ObjectTyper) (gvk : GroupVersionKind) (err : Option String), ts ≠ [] →
      multiObjectKindGo obj gvk err (pre ++ ts)
        = multiObjectKindGo obj zeroGroupVersionKind none ts := by
  induction pre with
  | nil =>
    intro ts gvk err hts
    cases ts with
    | nil => exact absurd rfl hts
    | cons t ts => simp only [List.nil_append, multiObjectKindGo]
  | cons t pre ih =>
    intro ts gvk err hts
    have hsome := hpre t (List.mem_cons_self t pre)
    obtain ⟨e, he⟩ := Option.isSome_iff_exists.mp hsome
    have ht : t.objectKind obj = ((t.objectKind obj).1, some e) := by
      cases hk : t.objectKind obj with
      | mk g er => rw [hk] at he; simp at he ⊢; exact he
    rw [List.cons_append, multiObjectKindGo_skip obj t (pre ++ ts) gvk _ err e ht]
    exact ih (fun t' ht' => hpre t' (List.mem_cons_of_mem t ht')) ts _ _ hts

theorem multiObjectKindsGo_append_failed (obj : Object) (pre : List ObjectTyper)
    (hpre : ∀ t' ∈ pre, ((t'.objectKinds obj).2).isSome = true) :
    ∀ (ts : List ObjectTyper) (gvks : List GroupVersionKind) (err : Option String), ts ≠ [] →
      multiObjectKindsGo obj gvks err (pre ++ ts)
        = multiObjectKindsGo obj [] none ts := by
  induction pre with
  | nil =>
    intro ts gvks err hts
    cases ts with
    | nil => exact absurd rfl hts
    | cons t ts => simp only [List.nil_append, multiObjectKindsGo]
  | cons t pre ih =>
    intro ts gvks err hts
    have hsome := hpre t (List.mem_cons_self t pre)
    obtain ⟨e, he⟩ := Option.isSome_iff_exists.mp hsome
    have ht : t.objectKinds obj = ((t.objectKinds obj).1, some e) := by
      cases hk : t.objectKinds obj with
      | mk gs er => rw [hk] at he; simp at he ⊢; exact he
    rw [List.cons_append, multiObjectKindsGo_skip obj t (pre ++ ts) gvks _ err e ht]
    exact ih (fun t' ht' => hpre t' (List.mem_cons_of_mem t ht')) ts _ _ hts

/-- Claim C6: `objectTyperToTyper.ObjectKind` propagates the underlying kind-lookup's
failure; when the kind-lookup succeeds but `IsUnversioned` reports not-found it always
fails with the contract-violation error naming the object's concrete type, never
returning a default unversioned value; otherwise it returns the kind and the
unversioned flag with no error. -/
theorem objectTyperToTyper_ObjectKind_spec (t : objectTyperToTyper) (obj : Object) :
    (∀ e, (t.typer.objectKind obj).2 = some e →
      objectTyperToTyper.ObjectKind t obj = (none, false, some (TyperError.propagated e)))
    ∧ ((t.typer.objectKind obj).2 = none → (t.typer.isUnversioned obj).2 = false →
      objectTyperToTyper.ObjectKind t obj
        = (none, false, some (TyperError.contractViolation (reflectTypeOf obj))))
    ∧ ((t.typer.objectKind obj).2 = none → (t.typer.isUnversioned obj).2 = true →
      objectTyperToTyper.ObjectKind t obj
        = (some (t.typer.objectKind obj).1, (t.typer.isUnversioned obj).1, none)) := by
  refine ⟨?_, ?_, ?_⟩
  · intro e he
    simp only [objectTyperToTyper.ObjectKind, he]
  · intro hk hu
    simp only [objectTyperToTyper.ObjectKind, hk, hu, Bool.not_false, if_true]
  · intro hk hu
    simp [objectTyperToTyper.ObjectKind, hk, hu]

/-- Claim C7: `MultiObjectTyper.ObjectKind` and `ObjectKinds` try each source in list
order and return the first successful result, consulting later sources only after a
prior failure (the result does not depend on the sources after the first success);
when every source fails they return the last source's result, error included. -/
theorem multiObjectTyper_first_success_policy (obj : Object) :
    (∀ (pre post : List ObjectTyper) (t : ObjectTyper),
      (∀ t' ∈ pre, ((t'.objectKind obj).2).isSome = true) →
      (t.objectKind obj).2 = none →
      MultiObjectTyper.ObjectKind (pre ++ t :: post) obj = t.objectKind obj)
    ∧ (∀ (pre post : List ObjectTyper) (t : ObjectTyper),
      (∀ t' ∈ pre, ((t'.objectKinds obj).2).isSome = true) →
      (t.objectKinds obj).2 = none →
      MultiObjectTyper.ObjectKinds (pre ++ t :: post) obj = t.objectKinds obj)
    ∧ (∀ (pre : List ObjectTyper) (t : ObjectTyper),
      (∀ t' ∈ pre ++ [t], ((t'.objectKind obj).2).isSome = true) →
      MultiObjectTyper.ObjectKind (pre ++ [t]) obj = t.objectKind obj)
    ∧ (∀ (pre : List ObjectTyper) (t : ObjectTyper),
      (∀ t' ∈ pre ++ [t], ((t'.objectKinds obj).2).isSome = true) →
      MultiObjectTyper.ObjectKinds (pre ++ [t]) obj = t.objectKinds obj) := by
  refine ⟨?_, ?_, ?_, ?_⟩
  · intro pre post t hpre ht
    have hg : t.objectKind obj = ((t.objectKind obj).1, none) := by
      cases hk : t.objectKind obj with
      | mk g er => rw [hk] at ht; simp at ht ⊢; exact ht
    rw [MultiObjectTyper.ObjectKind,
      multiObjectKindGo_append_failed obj pre hpre (t :: post) _ _ (List.cons_ne_nil t post),
      multiObjectKindGo_success_head obj t post _ _ _ hg]
    exact hg.symm
  · intro pre post t hpre ht
    have hg : t.objectKinds obj = ((t.objectKinds obj).1, none) := by
      cases hk : t.objectKinds obj with
      | mk gs er => rw [hk] at ht; simp at ht ⊢; exact ht
    rw [MultiObjectTyper.ObjectKinds,
      multiObjectKindsGo_append_failed obj pre hpre (t :: post) _ _ (List.cons_ne_nil t post),
      multiObjectKindsGo_success_head obj t post _ _ _ hg]
    exact hg.symm
  · intro pre t hall
    have hpre : ∀ t' ∈ pre, ((t'.objectKind obj).2).isSome = true :=
      fun t' ht' => hall t' (List.mem_append_left [t] ht')
    rw [MultiObjectTyper.ObjectKind,
      multiObjectKindGo_append_failed obj pre hpre [t] _ _ (List.cons_ne_nil t []),
      multiObjectKindGo_last obj t]
  · intro pre t hall
    have hpre : ∀ t' ∈ pre, ((t'.objectKinds obj).2).isSome = true :=
      fun t' ht' => hall t' (List.mem_append_left [t] ht')
    rw [MultiObjectTyper.ObjectKinds,
      multiObjectKindsGo_append_failed obj pre hpre [t] _ _ (List.cons_ne_nil t []),
      multiObjectKindsGo_last obj t]

/-- Claim C8: `MultiObjectTyper.IsUnversioned` returns the answer of the first source
that affirmatively reports found = true (even when the unversioned value is false);
when no source reports found, it returns (false, false). -/
theorem multiObjectTyper_IsUnversioned_spec (obj : Object) :
    (∀ (pre post : List ObjectTyper) (t : ObjectTyper),
      (∀ t' ∈ pre, (t'.isUnversioned obj).2 = false) →
      (t.isUnversioned obj).2 = true →
      MultiObjectTyper.IsUnversioned (pre ++ t :: post) obj
        = ((t.isUnversioned obj).1, true))
    ∧ (∀ ts : List ObjectTyper,
      (∀ t' ∈ ts, (t'.isUnversioned obj).2 = false) →
      MultiObjectTyper.IsUnversioned ts obj = (false, false)) := by
  constructor
  · intro pre post t hpre ht
    induction pre with
    | nil =>
      simp only [List.nil_append, MultiObjectTyper.IsUnversioned, ht, if_true]
    | cons t' pre ih =>
      have h' := hpre t' (List.mem_cons_self t' pre)
      simp only [List.cons_append, MultiObjectTyper.IsUnversioned, h', if_false]
      exact ih fun d hd => hpre d (List.mem_cons_of_mem t' hd)
  · intro ts hts
    induction ts with
    | nil => rfl
    | cons t' ts ih =>
      have h' := hts t' (List.mem_cons_self t' ts)
      simp only [MultiObjectTyper.IsUnversioned, h', if_false]
      exact ih fun d hd => hts d (List.mem_cons_of_mem t' hd)

/-- Claim C9: a `MultiObjectTyper` built from the empty source list appears to
succeed: `ObjectKind` returns the zero-value GroupVersionKind with no error, and
`ObjectKinds` returns the nil candidate list with no error. -/
theorem multiObjectTyper_empty_succeeds (obj : Object) :
    MultiObjectTyper.ObjectKind [] obj = (zeroGroupVersionKind, none)
    ∧ MultiObjectTyper.ObjectKinds [] obj = ([], none) :=
  ⟨rfl, rfl⟩

/-- Claim C10: `DecodeList` with an empty decoder list records no error and leaves
every position, Envelope or not, exactly as it was. -/
theorem decodeList_empty_decoders (objects : List Object) :
    DecodeList objects [] = (objects, []) := by
  induction objects with
  | nil => rfl
  | cons obj rest ih =>
    cases obj with
    | unknown u =>
      simp only [DecodeList, ih, decodeListItem, decodeFull, decodeMeta]
    | typed tn v =>
      simp only [DecodeList, ih]

/-- Claim C1: on an Envelope position, `DecodeList` tries the decoders in order on the
raw bytes; after any prefix of decoders failing with the not-registered condition, the
first decoder to fully decode replaces the position with the decoded Object (no
further decoder matters), while a decoder failing with any other condition leaves the
position unchanged, records its error for that position, skips the metadata-only
fallback, and the surrounding positions are still processed normally. -/
theorem decodeList_full_decode_policy
    (pre post : List Decoder) (d : Decoder) (u : Unknown) (objs1 objs2 : List Object)
    (hpre : ∀ d' ∈ pre, ∃ e, d'.decode u.raw = Except.error e ∧ IsNotRegisteredError e = true) :
    (∀ o, d.decode u.raw = Except.ok o →
      DecodeList (objs1 ++ Object.unknown u :: objs2) (pre ++ d :: post)
        = ((DecodeList objs1 (pre ++ d :: post)).1
             ++ o :: (DecodeList objs2 (pre ++ d :: post)).1,
           (DecodeList objs1 (pre ++ d :: post)).2
             ++ (DecodeList objs2 (pre ++ d :: post)).2))
    ∧ (∀ e, d.decode u.raw = Except.error e → IsNotRegisteredError e = false →
      DecodeList (objs1 ++ Object.unknown u :: objs2) (pre ++ d :: post)
        = ((DecodeList objs1 (pre ++ d :: post)).1
             ++ Object.unknown u :: (DecodeList objs2 (pre ++ d :: post)).1,
           (DecodeList objs1 (pre ++ d :: post)).2
             ++ e :: (DecodeList objs2 (pre ++ d :: post)).2)) := by
  constructor
  · intro o ho
    have hitem : decodeListItem u (pre ++ d :: post) = Except.ok o := by
      unfold decodeListItem
      rw [decodeFull_append_notRegistered u.raw pre _ hpre]
      simp [decodeFull, ho]
    rw [DecodeList_append]
    simp only [DecodeList, hitem]
  · intro e he hreg
    have hitem : decodeListItem u (pre ++ d :: post) = Except.error e := by
      unfold decodeListItem
      rw [decodeFull_append_notRegistered u.raw pre _ hpre]
      simp [decodeFull, he, hreg]
    rw [DecodeList_append]
    simp only [DecodeList, hitem]

/-- Claim C2: when every decoder's full-decode attempt on an Envelope's raw bytes
fails with the not-registered condition, `DecodeList` runs the metadata-only fallback
in decoder order, the first decoder to succeed writing the metadata into the Envelope
in place; the position records no error, and if no decoder succeeds in the fallback
either, the position keeps the very same Envelope value it had before the call. -/
theorem decodeList_metadata_fallback
    (ds : List Decoder) (u : Unknown) (objs1 objs2 : List Object)
    (hall : ∀ d ∈ ds, ∃ e, d.decode u.raw = Except.error e ∧ IsNotRegisteredError e = true) :
    DecodeList (objs1 ++ Object.unknown u :: objs2) ds
      = ((DecodeList objs1 ds).1
           ++ Object.unknown (decodeMeta u ds) :: (DecodeList objs2 ds).1,
         (DecodeList objs1 ds).2 ++ (DecodeList objs2 ds).2)
    ∧ (∀ (mpre mpost : List Decoder) (d : Decoder) (u' : Unknown),
        ds = mpre ++ d :: mpost →
        (∀ d' ∈ mpre, d'.decodeInto u.raw u = none) →
        d.decodeInto u.raw u = some u' →
        decodeMeta u ds = u')
    ∧ ((∀ d ∈ ds, d.decodeInto u.raw u = none) → decodeMeta u ds = u) := by
  refine ⟨?_, ?_, ?_⟩
  · have hfull : decodeFull u.raw ds = none := by
      have h := decodeFull_append_notRegistered u.raw ds [] hall
      simpa [decodeFull] using h
    have hitem : decodeListItem u ds = Except.ok (Object.unknown (decodeMeta u ds)) := by
      unfold decodeListItem
      rw [hfull]
    rw [DecodeList_append]
    simp only [DecodeList, hitem]
  · intro mpre mpost d u' hds hmpre hd
    subst hds
    rw [decodeMeta_append_failed u mpre _ hmpre]
    simp only [decodeMeta, hd]
  · intro hnone
    have h := decodeMeta_append_failed u ds [] hnone
    simpa [decodeMeta] using h

/-- Claim C3: `EncodeList` processes positions in order: a successfully encoded
position is replaced with an Envelope carrying the raw bytes (and zero metadata); a
failing position keeps its prior value and contributes its error; the returned
aggregate holds, in position order, exactly one entry per failing position, and is
`none` when no position failed. -/
theorem encodeList_per_position_policy (e : Encoder) (objects : List Object)
    (overrides : List GroupVersion) :
    (EncodeList e objects overrides).1
      = objects.map (fun obj =>
          match e.encode obj overrides with
          | Except.ok data => Object.unknown { typeMeta := zeroTypeMeta, raw := data }
          | Except.error _ => obj)
    ∧ (EncodeList e objects overrides).2
      = NewAggregate (objects.filterMap (fun obj =>
          match e.encode obj overrides with
          | Except.ok _ => none
          | Except.error err => some err))
    ∧ ((∀ obj ∈ objects, ∃ data, e.encode obj overrides = Except.ok data) →
        (EncodeList e objects overrides).2 = none) := by
  refine ⟨?_, ?_, ?_⟩
  · rw [EncodeList_eq]; rfl
  · rw [EncodeList_eq]; rfl
  · intro hok
    rw [EncodeList_eq]
    have hnil : objects.filterMap (encodeErr e overrides) = [] := by
      rw [List.filterMap_eq_nil]
      intro obj hobj
      obtain ⟨data, hdata⟩ := hok obj hobj
      simp [encodeErr, hdata]
    rw [hnil]
    rfl

/-- Claim C4: in both `EncodeList` and `DecodeList` a failure at one position never
prevents processing of any other position: every position of the result is the
per-position transform of the same input position, lengths are preserved, and the
per-position errors are collected, in position order, and reported together after the
whole collection is processed. -/
theorem list_codec_error_isolation (e : Encoder) (overrides : List GroupVersion)
    (decoders : List Decoder) (objects : List Object) :
    (EncodeList e objects overrides).1.length = objects.length
    ∧ (DecodeList objects decoders).1.length = objects.length
    ∧ (∀ i, ((EncodeList e objects overrides).1).get? i
        = (objects.get? i).map (encodeStep e overrides))
    ∧ (∀ i, ((DecodeList objects decoders).1).get? i
        = (objects.get? i).map (decodeStep decoders))
    ∧ (EncodeList e objects overrides).2
        = NewAggregate (objects.filterMap (encodeErr e overrides))
    ∧ (DecodeList objects decoders).2 = objects.filterMap (decodeErr decoders) := by
  refine ⟨?_, ?_, ?_, ?_, ?_, ?_⟩
  · rw [EncodeList_eq]; exact List.length_map objects _
  · rw [DecodeList_eq]; exact List.length_map objects _
  · intro i; rw [EncodeList_eq]; exact List.get?_map _ objects i
  · intro i; rw [DecodeList_eq]; exact List.get?_map _ objects i
  · rw [EncodeList_eq]
  · rw [DecodeList_eq]

theorem filterMap_decodeErr_filter (decoders : List Decoder) (objects : List Object) :
    objects.filterMap (decodeErr decoders)
      = (objects.filter isEnvelope).filterMap (decodeErr decoders) := by
  induction objects with
  | nil => rfl
  | cons obj rest ih =>
    cases obj with
    | unknown u =>
      simp only [List.filter_cons, isEnvelope, if_true, List.filterMap_cons, ih]
    | typed tn v =>
      simp only [List.filter_cons, isEnvelope, List.filterMap_cons, decodeErr, ih]
      simp

/-- Claim C5: `EncodeList` and `DecodeList` preserve the collection's length and
position order (values are only replaced in place), and `DecodeList` leaves every
non-Envelope position untouched, all recorded errors coming from Envelope positions
only. -/
theorem list_codec_shape_preservation (e : Encoder) (overrides : List GroupVersion)
    (decoders : List Decoder) (objects : List Object) :
    (EncodeList e objects overrides).1.length = objects.length
    ∧ (DecodeList objects decoders).1.length = objects.length
    ∧ (∀ i, ((EncodeList e objects overrides).1).get? i
        = (objects.get? i).map (encodeStep e overrides))
    ∧ (∀ i, ((DecodeList objects decoders).1).get? i
        = (objects.get? i).map (decodeStep decoders))
    ∧ (∀ i obj, objects.get? i = some obj → isEnvelope obj = false →
        ((DecodeList objects decoders).1).get? i = some obj)
    ∧ (DecodeList objects decoders).2
        = (objects.filter isEnvelope).filterMap (decodeErr decoders) := by
  refine ⟨?_, ?_, ?_, ?_, ?_, ?_⟩
  · rw [EncodeList_eq]; exact List.length_map objects _
  · rw [DecodeList_eq]; exact List.length_map objects _
  · intro i; rw [EncodeList_eq]; exact List.get?_map _ objects i
  · intro i; rw [DecodeList_eq]; exact List.get?_map _ objects i
  · intro i obj hobj henv
    rw [DecodeList_eq]
    cases obj with
    | unknown u => simp [isEnvelope] at henv
    | typed tn v =>
      rw [List.get?_map, hobj]
      rfl
  · rw [DecodeList_eq, filterMap_decodeErr_filter]

/-- Witness for C1: with decoders [not-registered, success, hard-failure], the
envelope position is replaced by the second decoder's object and no error is
recorded. -/
theorem decodeList_full_decode_policy_witness :
    DecodeList [Object.unknown u0] [decNotReg, decOkA, decHard] = ([objA], []) := by
  have h := (decodeList_full_decode_policy [decNotReg] [decHard] decOkA u0 [] []
    (fun d' hd' => by
      rcases List.mem_singleton.mp hd' with rfl
      exact ⟨DecodeError.notRegistered "nr", rfl, rfl⟩)).1 objA rfl
  simpa [DecodeList] using h

/-- Witness for C2: with the single metadata-only decoder, the envelope keeps its raw
bytes but gains the v1/Foo metadata and no error is recorded. -/
theorem decodeList_metadata_fallback_witness :
    DecodeList [Object.unknown u0] [decMetaOnly]
      = ([Object.unknown { typeMeta := { apiVersion := "v1", kind := "Foo" }, raw := [1, 2] }],
         []) := by
  have h := (decodeList_metadata_fallback [decMetaOnly] u0 [] []
    (fun d hd => by
      rcases List.mem_singleton.mp hd with rfl
      exact ⟨DecodeError.notRegistered "nr", rfl, rfl⟩)).1
  simpa [DecodeList, decodeMeta, decMetaOnly, u0] using h

/-- Witness for C3: when every position encodes successfully, the aggregate error is
none. -/
theorem encodeList_per_position_policy_witness :
    (EncodeList encOk [Object.typed "T" 1] []).2 = none :=
  (encodeList_per_position_policy encOk [Object.typed "T" 1] []).2.2
    (fun obj hobj => ⟨[7], rfl⟩)

/-- Witness for C5: a non-Envelope position is untouched by DecodeList. -/
theorem list_codec_shape_preservation_witness :
    (DecodeList [Object.typed "T" 5] []).1.get? 0 = some (Object.typed "T" 5) :=
  (list_codec_shape_preservation encOk [] [] [Object.typed "T" 5]).2.2.2.2.1 0
    (Object.typed "T" 5) rfl rfl

/-- Witness for C6: the contract-violating source makes the adaptor fail with the
contract-violation error naming the object's type. -/
theorem objectTyperToTyper_ObjectKind_spec_witness :
    objectTyperToTyper.ObjectKind { typer := typerBadContract } obj0
      = (none, false, some (TyperError.contractViolation "T")) :=
  (objectTyperToTyper_ObjectKind_spec { typer := typerBadContract } obj0).2.1 rfl rfl

/-- Witness for C7: with sources [fail, succeed], ObjectKind returns the second
source's result. -/
theorem multiObjectTyper_first_success_policy_witness :
    MultiObjectTyper.ObjectKind [typerFail, typerOk] obj0 = (gvkA, none) := by
  have h := (multiObjectTyper_first_success_policy obj0).1 [typerFail] [] typerOk
    (fun t' ht' => by rcases List.mem_singleton.mp ht' with rfl; rfl) rfl
  simpa [typerOk] using h

/-- Witness for C8: with sources [not-found, found-with-false], IsUnversioned returns
(false, true): the first affirmative answer, even though its value is false. -/
theorem multiObjectTyper_IsUnversioned_spec_witness :
    MultiObjectTyper.IsUnversioned [typerFail, typerOk] obj0 = (false, true) := by
  have h := (multiObjectTyper_IsUnversioned_spec obj0).1 [typerFail] [] typerOk
    (fun t' ht' => by rcases List.mem_singleton.mp ht' with rfl; rfl) rfl
  simpa [typerOk] using h

end Runtime
